import Mathlib

/-!
Verification of the host/device array-transfer and output-buffer-reuse
protocol described by the repository's notebooks and their specification.

The notebooks demonstrate a NumPy/Numba-style workflow: broadcasting
elementwise application (`np.add`), a CPU `hypot` kernel, strided host
views, and a GPU memory-management protocol (`cuda.to_device`,
`cuda.device_array`, `copy_to_host`, the `out=` argument of a ufunc).
The transfer/lifecycle manager itself is library code not present in the
repository, so it is modelled from the specification; the `hypot` kernel
and the concrete broadcasting/view examples are embedded from the
notebook source directly.
-/

/-- Shape of a multidimensional array: dimension sizes, outermost first. -/
abbrev Shape := List Nat

/-- Element dtypes appearing in the notebooks. -/
inductive DType
  | f32
  | f64
  | i64
deriving DecidableEq, Repr

/-- Modelled from the spec: error taxonomy of the transfer manager and
batch executor (section 7 of the design). -/
inductive Err
  | AllocationError
  | NotReadyError
  | UseAfterFreeError
  | ShapeMismatchError
  | OutputContractError
deriving DecidableEq, Repr

/-- Modelled from the spec: combination of a single pair of dimension
sizes under broadcasting: compatible iff equal or one of them is 1. -/
def broadcastDim (a b : Nat) : Option Nat :=
  if a = b then some a
  else if a = 1 then some b
  else if b = 1 then some a
  else none

/-- Modelled from the spec: broadcasting of two shapes given with their
dimension lists reversed (trailing dimension first), so that alignment
from the trailing dimension is structural recursion.  A missing leading
dimension is treated as size 1, i.e. the shorter list is padded. -/
def broadcastRev : List Nat → List Nat → Option (List Nat)
  | [], ys => some ys
  | x :: xs, [] => some (x :: xs)
  | x :: xs, y :: ys =>
    match broadcastDim x y, broadcastRev xs ys with
    | some d, some rest => some (d :: rest)
    | _, _ => none

/-- Modelled from the spec: the broadcast shape of two shapes, aligned
from the trailing dimension; `none` when no compatible shape exists. -/
def broadcastShape (s t : Shape) : Option Shape :=
  (broadcastRev s.reverse t.reverse).map List.reverse

/-- Modelled from the spec: broadcast shape of a list of input shapes
(at least one non-scalar input is required, so the empty list has no
broadcast shape). -/
def broadcastAll : List Shape → Option Shape
  | [] => none
  | [s] => some s
  | s :: rest =>
    match broadcastAll rest with
    | some t => broadcastShape s t
    | none => none

/-- Number of elements of an array of the given shape. -/
def shapeSize : Shape → Nat
  | [] => 1
  | d :: ds => d * shapeSize ds

/-- All multi-indices of a shape, in C (row-major) order. -/
def allIndices : Shape → List (List Nat)
  | [] => [[]]
  | d :: ds => (List.range d).flatMap (fun i => (allIndices ds).map (fun r => i :: r))

/-- Row-major flat position of a multi-index within a shape. -/
def flatIndex : Shape → List Nat → Nat
  | _, [] => 0
  | [], _ => 0
  | _ :: ds, i :: is => i * shapeSize ds + flatIndex ds is

/-- Modelled from the spec: the multi-index at which an input of shape
`ashape` is read when producing the output element at multi-index `idx`
of the broadcast shape: leading output axes missing from the input are
dropped, and axes of size 1 are pinned to coordinate 0. -/
def bIndex (ashape : Shape) (idx : List Nat) : List Nat :=
  List.zipWith (fun d i => if d = 1 then 0 else i)
    ashape (idx.drop (idx.length - ashape.length))

/-- Host-resident array descriptor: dtype, shape and flat row-major
element data (element values modelled as integers). -/
structure HostArray where
  shape : Shape
  dtype : DType
  data : List Int
deriving DecidableEq, Repr

/-- Modelled from the spec: an elementwise function value, declaring a
return dtype and an evaluation on one tuple of input elements. -/
structure UFunc where
  retDtype : DType
  eval : List Int → Int

/-- Element of the broadcast result at one output multi-index, reading
every input at its broadcast-adjusted index. -/
def broadcastElem (fn : UFunc) (ins : List (Shape × List Int)) (idx : List Nat) : Int :=
  fn.eval (ins.map (fun a => a.2.getD (flatIndex a.1 (bIndex a.1 idx)) 0))

/-- Modelled from the spec: flat row-major result data of applying `fn`
elementwise over the broadcast index space of shape `bs`. -/
def evalBroadcast (fn : UFunc) (ins : List (Shape × List Int)) (bs : Shape) : List Int :=
  (allIndices bs).map (broadcastElem fn ins)

/-- Modelled from the spec: host-path `apply(fn, *inputs)` with no
output buffer: compute the broadcast shape (`ShapeMismatchError` when
none exists) and evaluate `fn` independently per output element. -/
def applyHost (fn : UFunc) (inputs : List HostArray) : Except Err HostArray :=
  match broadcastAll (inputs.map (fun a => a.shape)) with
  | none => Except.error Err.ShapeMismatchError
  | some bs =>
    Except.ok
      { shape := bs
        dtype := fn.retDtype
        data := evalBroadcast fn (inputs.map (fun a => (a.shape, a.data))) bs }

/-- The binary addition ufunc demonstrated by the notebooks (`np.add`,
`add_ufunc`), on integer-valued elements with an int64 result. -/
def addU : UFunc :=
  { retDtype := DType.i64
    eval := fun l => l.foldl (fun a b => a + b) 0 }

/-- The length-4 vector `[10, 20, 30, 40]` of the broadcasting example. -/
def bVec : HostArray :=
  { shape := [4], dtype := DType.i64, data := [10, 20, 30, 40] }

/-- The same data reshaped to a (4,1) column, as built with `np.newaxis`. -/
def bCol : HostArray :=
  { shape := [4, 1], dtype := DType.i64, data := [10, 20, 30, 40] }

/-- The 4x4 matrix `np.arange(16).reshape((4,4))` of the example. -/
def cMat : HostArray :=
  { shape := [4, 4], dtype := DType.i64
    data := [0, 1, 2, 3, 4, 5, 6, 7, 8, 9, 10, 11, 12, 13, 14, 15] }

/-- Decidable equality of `Except` results, used to evaluate the model
on concrete inputs. -/
instance {ε α : Type} [DecidableEq ε] [DecidableEq α] : DecidableEq (Except ε α) := fun x y =>
  match x, y with
  | Except.ok a, Except.ok b =>
    if h : a = b then isTrue (by rw [h]) else isFalse (by simp [h])
  | Except.error a, Except.error b =>
    if h : a = b then isTrue (by rw [h]) else isFalse (by simp [h])
  | Except.ok _, Except.error _ => isFalse (by simp)
  | Except.error _, Except.ok _ => isFalse (by simp)

/-- Modelled from the spec: contents state of one device buffer.  An
uninitialized allocation carries no element data at all (`unready`), so
no silent zero-filling can occur; a freed buffer keeps only its
descriptor. -/
inductive BufStatus
  | unready
  | ready (data : List Int)
  | freed
deriving DecidableEq, Repr

/-- Modelled from the spec: the record the transfer manager keeps for
one device buffer: immutable shape and dtype plus the contents state. -/
structure BufRec where
  shape : Shape
  dtype : DType
  status : BufStatus
deriving DecidableEq, Repr

/-- Whether the buffer's contents are defined (the spec's `ready` flag). -/
def BufRec.isReady (r : BufRec) : Bool :=
  match r.status with
  | BufStatus.ready _ => true
  | _ => false

/-- Modelled from the spec: the transfer manager: an id supply, the
device heap, an allocation counter (the spec's observable allocation
count), and the log of released buffer ids. -/
structure Mgr where
  next : Nat
  bufs : List (Nat × BufRec)
  allocCount : Nat
  releases : List Nat
deriving DecidableEq, Repr

/-- Look up the value stored under key `i` in an association list. -/
def lookupRec {β : Type} : List (Nat × β) → Nat → Option β
  | [], _ => none
  | p :: rest, i => if p.1 = i then some p.2 else lookupRec rest i

/-- Apply `f` to the value stored under key `i` (first occurrence). -/
def updateRec {β : Type} : List (Nat × β) → Nat → (β → β) → List (Nat × β)
  | [], _, _ => []
  | p :: rest, i, f => if p.1 = i then (p.1, f p.2) :: rest else p :: updateRec rest i f

/-- Look up the record of a device buffer by id. -/
def findBuf (m : Mgr) (i : Nat) : Option BufRec :=
  lookupRec m.bufs i

/-- Replace the record stored for id `i`. -/
def setBuf (m : Mgr) (i : Nat) (r : BufRec) : Mgr :=
  { m with bufs := updateRec m.bufs i (fun _ => r) }

/-- Modelled from the spec: `to_device(host_array)`: allocate a fresh
device buffer sized to the host array, copy all elements, return it
with defined (`ready`) contents.  The copy shares no storage with the
host array. -/
def to_device (h : HostArray) (m : Mgr) : Nat × Mgr :=
  (m.next,
   { next := m.next + 1
     bufs := (m.next, { shape := h.shape, dtype := h.dtype, status := BufStatus.ready h.data }) :: m.bufs
     allocCount := m.allocCount + 1
     releases := m.releases })

/-- Modelled from the spec: `device_array(shape, dtype)`: allocate a
fresh device buffer without initializing its contents (`ready=false`). -/
def device_array (shape : Shape) (dtype : DType) (m : Mgr) : Nat × Mgr :=
  (m.next,
   { next := m.next + 1
     bufs := (m.next, { shape := shape, dtype := dtype, status := BufStatus.unready }) :: m.bufs
     allocCount := m.allocCount + 1
     releases := m.releases })

/-- Modelled from the spec: `copy_to_host(device_buffer)`: allocate a
new host array of matching shape/dtype and copy all elements back.
Fails with `NotReadyError` on an unready buffer and with
`UseAfterFreeError` on a freed (or unknown) handle. -/
def copy_to_host (m : Mgr) (i : Nat) : Except Err HostArray :=
  match findBuf m i with
  | none => Except.error Err.UseAfterFreeError
  | some r =>
    match r.status with
    | BufStatus.freed => Except.error Err.UseAfterFreeError
    | BufStatus.unready => Except.error Err.NotReadyError
    | BufStatus.ready d => Except.ok { shape := r.shape, dtype := r.dtype, data := d }

/-- Modelled from the spec: `free(device_buffer)`: release the device
memory exactly once; any use of a freed handle, a second `free`
included, fails with `UseAfterFreeError` and leaves the manager
untouched. -/
def free (m : Mgr) (i : Nat) : Except Err Mgr :=
  match findBuf m i with
  | none => Except.error Err.UseAfterFreeError
  | some r =>
    match r.status with
    | BufStatus.freed => Except.error Err.UseAfterFreeError
    | _ =>
      let m' := setBuf m i { shape := r.shape, dtype := r.dtype, status := BufStatus.freed }
      Except.ok { m' with releases := i :: m'.releases }

/-- Modelled from the spec: resolve a list of device-buffer input ids
to their shapes and contents, failing on freed/unknown handles
(`UseAfterFreeError`) and on unready buffers (`NotReadyError`). -/
def resolveInputs (m : Mgr) : List Nat → Except Err (List (Shape × List Int))
  | [] => Except.ok []
  | i :: rest =>
    match findBuf m i with
    | none => Except.error Err.UseAfterFreeError
    | some r =>
      match r.status with
      | BufStatus.freed => Except.error Err.UseAfterFreeError
      | BufStatus.unready => Except.error Err.NotReadyError
      | BufStatus.ready d =>
        match resolveInputs m rest with
        | Except.error e => Except.error e
        | Except.ok l => Except.ok ((r.shape, d) :: l)

/-- Modelled from the spec: device-path `apply(fn, *inputs, out=buf)`
with a caller-supplied output buffer: resolve the inputs, compute the
broadcast shape (`ShapeMismatchError` when none exists), check the
output contract (the buffer's shape must equal the broadcast shape and
its dtype must equal `fn`'s return dtype, `OutputContractError`
otherwise), then write the results into the buffer and return the same
handle.  No allocation happens on this path. -/
def devApply (fn : UFunc) (m : Mgr) (inputs : List Nat) (out : Nat) : Except Err (Nat × Mgr) :=
  match resolveInputs m inputs with
  | Except.error e => Except.error e
  | Except.ok ins =>
    match broadcastAll (ins.map (fun a => a.1)) with
    | none => Except.error Err.ShapeMismatchError
    | some bs =>
      match findBuf m out with
      | none => Except.error Err.UseAfterFreeError
      | some r =>
        match r.status with
        | BufStatus.freed => Except.error Err.UseAfterFreeError
        | _ =>
          if r.shape = bs ∧ r.dtype = fn.retDtype then
            Except.ok (out,
              setBuf m out
                { shape := r.shape, dtype := r.dtype
                  status := BufStatus.ready (evalBroadcast fn ins bs) })
          else Except.error Err.OutputContractError

/-- Modelled from the spec: the observable world: a heap of mutable
host arrays referenced by id, next to the device-side manager.  Host
mutation and device mutation act on disjoint parts of this state, which
is what makes the no-aliasing guarantee of `to_device` statable. -/
structure World where
  hosts : List (Nat × HostArray)
  hnext : Nat
  dev : Mgr
deriving DecidableEq, Repr

/-- Look up a host array by id. -/
def lookupHost (w : World) (i : Nat) : Option HostArray :=
  lookupRec w.hosts i

/-- Register a host array in the world, returning its id. -/
def newHost (w : World) (h : HostArray) : Nat × World :=
  (w.hnext, { w with hosts := (w.hnext, h) :: w.hosts, hnext := w.hnext + 1 })

/-- Mutate one element of a host array in place. -/
def hostWrite (w : World) (i : Nat) (k : Nat) (v : Int) : World :=
  { w with
    hosts := updateRec w.hosts i (fun h => { h with data := h.data.set k v }) }

/-- Mutate one element of a ready device buffer in place (a device-side
kernel write); unready or freed buffers are left untouched. -/
def devWrite (w : World) (i : Nat) (k : Nat) (v : Int) : World :=
  { w with
    dev := { w.dev with
      bufs := updateRec w.dev.bufs i (fun r =>
        match r.status with
        | BufStatus.ready d => { r with status := BufStatus.ready (d.set k v) }
        | _ => r) } }

/-- World-level `to_device`: copy the host array with the given id to a
fresh device buffer; `none` if the id names no host array. -/
def to_deviceW (w : World) (i : Nat) : Option (Nat × World) :=
  match lookupHost w i with
  | none => none
  | some h =>
    match to_device h w.dev with
    | (j, m') => some (j, { w with dev := m' })

/-- Contents of a device buffer in a world, when defined. -/
def devContents (w : World) (i : Nat) : Option (List Int) :=
  match findBuf w.dev i with
  | some r =>
    match r.status with
    | BufStatus.ready d => some d
    | _ => none
  | none => none

/-- Data of a host array in a world, when the id is live. -/
def hostData (w : World) (i : Nat) : Option (List Int) :=
  (lookupHost w i).map (fun h => h.data)

/-- Modelled from the spec: one parallel execution strategy of the
batch executor: the per-element tasks run in the order given by
`order`, each task `k` writing its element `f k` into slot `k` of the
output buffer, with no other communication. -/
def runSchedule {α : Type} (f : Nat → α) (order : List Nat) (init : List α) : List α :=
  order.foldl (fun acc k => acc.set k (f k)) init

/-- Per-element value of a broadcast application at flat position `k`
of the output index space. -/
def broadcastElemAt (fn : UFunc) (ins : List (Shape × List Int)) (bs : Shape) (k : Nat) : Int :=
  broadcastElem fn ins ((allIndices bs).getD k [])

/-- One-dimensional strided view into a flat element store, as produced
by basic slicing in the notebook (`orig[::3]`): a base offset, an
element stride and a length. -/
structure View1 where
  base : Nat
  stride : Nat
  len : Nat
deriving DecidableEq, Repr

/-- The identity view of a length-`n` array (stride one element). -/
def fullView (n : Nat) : View1 :=
  { base := 0, stride := 1, len := n }

/-- The view `a[::step]` of a length-`n` array: every `step`-th element
starting at 0, stride multiplied by `step`. -/
def sliceStep (n step : Nat) : View1 :=
  { base := 0, stride := step, len := (n + step - 1) / step }

/-- Read element `i` of a view over the shared store. -/
def viewGet (store : List Int) (v : View1) (i : Nat) : Int :=
  store.getD (v.base + i * v.stride) 0

/-- Write element `i` of a view, mutating the shared store: slicing
yields a view, not a copy, so the write lands in the original array's
storage. -/
def viewSet (store : List Int) (v : View1) (i : Nat) (x : Int) : List Int :=
  store.set (v.base + i * v.stride) x

/-- Byte stride of a view for the given element size. -/
def stridesBytes (v : View1) (elSize : Nat) : Nat :=
  v.stride * elSize

/-- The array `np.arange(20)` of the slicing example. -/
def arange20 : List Int :=
  (List.range 20).map (fun n => (n : Int))

/-- Floating-point value of the `hypot` model: `some r` is the finite
real value `r`; `none` is a non-real result (NaN, as produced by the
division `0/0`; division of a nonzero value by zero is also mapped to
`none`, a case the embedded kernel never reaches because its divisor is
`max(|x|,|y|)`, which is zero only when the dividend is too). -/
abbrev FVal := Option ℝ

/-- Division in the float model: a non-real operand or a zero divisor
yields a non-real result; otherwise exact real division. -/
noncomputable def fDiv : FVal → FVal → FVal
  | some a, some b => if b = 0 then none else some (a / b)
  | _, _ => none

/-- Multiplication in the float model: NaN propagates (IEEE `0 * NaN`
is NaN, so there is no absorbing zero). -/
def fMul : FVal → FVal → FVal
  | some a, some b => some (a * b)
  | _, _ => none

/-- Addition in the float model: NaN propagates. -/
def fAdd : FVal → FVal → FVal
  | some a, some b => some (a + b)
  | _, _ => none

/-- Square root in the float model: NaN propagates and a negative
argument yields NaN. -/
noncomputable def fSqrt : FVal → FVal
  | some a => if a < 0 then none else some (Real.sqrt a)
  | none => none

/-- The `hypot` kernel of the CPU notebook, embedded statement by
statement: `x = abs(x); y = abs(y); t = min(x, y); x = max(x, y);
t = t / x; return x * math.sqrt(1 + t*t)`.  The division `t / x` is
performed with no guard against a zero divisor. -/
noncomputable def hypot (x y : ℝ) : FVal :=
  let x1 := |x|
  let y1 := |y|
  let t := min x1 y1
  let x2 := max x1 y1
  let t1 := fDiv (some t) (some x2)
  fMul (some x2) (fSqrt (fAdd (some 1) (fMul t1 t1)))

/-- C1: for every host array `h` and every manager state, copying `h`
to the device and straight back yields exactly `h`: element-wise equal,
with the same shape and dtype. -/
theorem claim_C1_roundtrip (h : HostArray) (m : Mgr) :
    copy_to_host (to_device h m).2 (to_device h m).1 = Except.ok h := by
  simp [copy_to_host, to_device, findBuf, lookupRec]

/-- C4: a buffer allocated by `device_array` starts with undefined
contents (`ready = false` and no element data stored at all, so nothing
is silently zero-filled), and reading it before any write — via
`copy_to_host` or as an input of `apply` — raises `NotReadyError`. -/
theorem claim_C4_unready_read (shape : Shape) (dtype : DType) (m : Mgr) :
    findBuf (device_array shape dtype m).2 (device_array shape dtype m).1 =
      some { shape := shape, dtype := dtype, status := BufStatus.unready } ∧
    (findBuf (device_array shape dtype m).2 (device_array shape dtype m).1).map
      BufRec.isReady = some false ∧
    copy_to_host (device_array shape dtype m).2 (device_array shape dtype m).1 =
      Except.error Err.NotReadyError ∧
    (∀ (fn : UFunc) (rest : List Nat) (out : Nat),
      devApply fn (device_array shape dtype m).2
        ((device_array shape dtype m).1 :: rest) out =
        Except.error Err.NotReadyError) := by
  refine ⟨?_, ?_, ?_, ?_⟩
  · simp [device_array, findBuf, lookupRec]
  · simp [device_array, findBuf, lookupRec, BufRec.isReady]
  · simp [device_array, findBuf, lookupRec, copy_to_host]
  · intro fn rest out
    simp [device_array, findBuf, lookupRec, devApply, resolveInputs]

/-- C5: when two input shapes admit no broadcast shape under the
standard rule, `apply` fails with `ShapeMismatchError`; in particular
for shapes `(3,)` and `(4,)`. -/
theorem claim_C5_shape_mismatch :
    (∀ (fn : UFunc) (A B : HostArray), broadcastShape A.shape B.shape = none →
      applyHost fn [A, B] = Except.error Err.ShapeMismatchError) ∧
    (∀ (A B : HostArray), A.shape = [3] → B.shape = [4] →
      applyHost addU [A, B] = Except.error Err.ShapeMismatchError) := by
  constructor
  · intro fn A B hnone
    simp [applyHost, broadcastAll, hnone]
  · intro A B hA hB
    simp [applyHost, broadcastAll, hA, hB, broadcastShape, broadcastRev, broadcastDim]

/-- Closed witness for C5 at the notebook's concrete mismatch: a
length-3 and a length-4 vector. -/
theorem claim_C5_witness :
    applyHost addU
      [{ shape := [3], dtype := DType.i64, data := [1, 2, 3] },
       { shape := [4], dtype := DType.i64, data := [1, 2, 3, 4] }] =
      Except.error Err.ShapeMismatchError :=
  claim_C5_shape_mismatch.2 _ _ rfl rfl

/-- C2: `apply(add, A, B)` realizes elementwise addition under the
standard broadcasting rule, and on the notebook's concrete inputs —
the vector `[10,20,30,40]` against the 4x4 matrix of `0..15` — yields
the row-wise sums, while the same data reshaped to `(4,1)` yields the
column-wise sums. -/
theorem claim_C2_broadcast_add :
    (∀ (A B : HostArray) (bs : Shape), broadcastShape A.shape B.shape = some bs →
      applyHost addU [A, B] =
        Except.ok
          { shape := bs
            dtype := DType.i64
            data := (allIndices bs).map (fun idx =>
              A.data.getD (flatIndex A.shape (bIndex A.shape idx)) 0 +
              B.data.getD (flatIndex B.shape (bIndex B.shape idx)) 0) }) ∧
    applyHost addU [bVec, cMat] =
      Except.ok
        { shape := [4, 4]
          dtype := DType.i64
          data := [10, 21, 32, 43, 14, 25, 36, 47, 18, 29, 40, 51, 22, 33, 44, 55] } ∧
    applyHost addU [bCol, cMat] =
      Except.ok
        { shape := [4, 4]
          dtype := DType.i64
          data := [10, 11, 12, 13, 24, 25, 26, 27, 38, 39, 40, 41, 52, 53, 54, 55] } := by
  refine ⟨?_, by decide, by decide⟩
  intro A B bs hbs
  simp [applyHost, broadcastAll, hbs, evalBroadcast, broadcastElem, addU]

/-- Closed witness for C2, applying the general broadcasting law at the
notebook's row-wise example. -/
theorem claim_C2_witness :
    applyHost addU [bVec, cMat] =
      Except.ok
        { shape := [4, 4]
          dtype := DType.i64
          data := (allIndices [4, 4]).map (fun idx =>
            bVec.data.getD (flatIndex bVec.shape (bIndex bVec.shape idx)) 0 +
            cMat.data.getD (flatIndex cMat.shape (bIndex cMat.shape idx)) 0) } :=
  claim_C2_broadcast_add.1 bVec cMat [4, 4] (by decide)

/-- C10: `orig[::3]` on `np.arange(20)` is a strided view sharing the
original storage: its byte stride is 24 against the base array's 8, it
reads `[0,3,6,9,12,15,18]`, and assigning 99 through index 1 of the
view rewrites exactly position 3 of the original array. -/
theorem claim_C10_view_shares_storage :
    stridesBytes (sliceStep 20 3) 8 = 24 ∧
    stridesBytes (fullView 20) 8 = 8 ∧
    (sliceStep 20 3).len = 7 ∧
    (List.range (sliceStep 20 3).len).map (viewGet arange20 (sliceStep 20 3)) =
      [0, 3, 6, 9, 12, 15, 18] ∧
    viewSet arange20 (sliceStep 20 3) 1 99 =
      [0, 1, 2, 99, 4, 5, 6, 7, 8, 9, 10, 11, 12, 13, 14, 15, 16, 17, 18, 19] ∧
    (List.range (sliceStep 20 3).len).map
      (viewGet (viewSet arange20 (sliceStep 20 3) 1 99) (sliceStep 20 3)) =
      [0, 99, 6, 9, 12, 15, 18] := by
  decide

/-- Updating key `i` changes exactly the lookup at `i`, applying `f` to
the stored value. -/
theorem lookupRec_updateRec_self {β : Type} (l : List (Nat × β)) (i : Nat) (f : β → β) :
    lookupRec (updateRec l i f) i = (lookupRec l i).map f := by
  induction l with
  | nil => simp [lookupRec, updateRec]
  | cons p rest ih =>
    by_cases hp : p.1 = i
    · simp [lookupRec, updateRec, hp]
    · simp [lookupRec, updateRec, hp, ih]

/-- Updating key `i` leaves the lookup at every other key unchanged. -/
theorem lookupRec_updateRec_ne {β : Type} (l : List (Nat × β)) (i j : Nat) (f : β → β)
    (hne : j ≠ i) :
    lookupRec (updateRec l i f) j = lookupRec l j := by
  induction l with
  | nil => simp [lookupRec, updateRec]
  | cons p rest ih =>
    by_cases hp : p.1 = i
    · have hpj : ¬ p.1 = j := by rw [hp]; exact fun hc => hne hc.symm
      simp [lookupRec, updateRec, hp, hpj, Ne.symm hne]
    · by_cases hq : p.1 = j
      · simp [lookupRec, updateRec, hp, hq, hne]
      · simp [lookupRec, updateRec, hp, hq, ih]

/-- Replacing a buffer record rewrites exactly that buffer's entry. -/
theorem findBuf_setBuf_self (m : Mgr) (i : Nat) (r : BufRec) :
    findBuf (setBuf m i r) i = (findBuf m i).map (fun _ => r) := by
  simp [findBuf, setBuf, lookupRec_updateRec_self]

/-- Replacing a buffer record leaves every other buffer unchanged. -/
theorem findBuf_setBuf_ne (m : Mgr) (i j : Nat) (r : BufRec) (hne : j ≠ i) :
    findBuf (setBuf m i r) j = findBuf m j := by
  simp [findBuf, setBuf, lookupRec_updateRec_ne _ _ _ _ hne]

/-- C6: `to_device` returns a ready buffer with the host array's shape,
dtype and elements, and the buffer does not alias the host array: after
the copy, writing an element of the host array leaves the device
contents untouched, and a device-side write of the buffer leaves the
host array untouched. -/
theorem claim_C6_no_alias (w : World) (i did : Nat) (w' : World) (h : HostArray)
    (hl : lookupHost w i = some h)
    (ht : to_deviceW w i = some (did, w')) :
    findBuf w'.dev did =
      some { shape := h.shape, dtype := h.dtype, status := BufStatus.ready h.data } ∧
    (findBuf w'.dev did).map BufRec.isReady = some true ∧
    devContents w' did = some h.data ∧
    hostData w' i = some h.data ∧
    (∀ k v, devContents (hostWrite w' i k v) did = some h.data) ∧
    (∀ k v, hostData (devWrite w' did k v) i = some h.data) := by
  rw [to_deviceW, hl] at ht
  simp only [to_device, Option.some.injEq, Prod.mk.injEq] at ht
  obtain ⟨hdid, hw'⟩ := ht
  subst hw'
  subst hdid
  refine ⟨?_, ?_, ?_, ?_, ?_, ?_⟩
  · simp [findBuf, lookupRec]
  · simp [findBuf, lookupRec, BufRec.isReady]
  · simp [devContents, findBuf, lookupRec]
  · simp only [hostData, lookupHost] at hl ⊢
    rw [hl]
    rfl
  · intro k v
    simp [devContents, hostWrite, findBuf, lookupRec]
  · intro k v
    simp only [hostData, devWrite, lookupHost] at hl ⊢
    rw [hl]
    rfl

/-- Concrete two-element host array used by the closed instances. -/
def hConc : HostArray := { shape := [2], dtype := DType.i64, data := [5, 7] }

/-- Concrete world holding `hConc` at host id 0, device side empty. -/
def w6A : World :=
  { hosts := [(0, hConc)], hnext := 1
    dev := { next := 0, bufs := [], allocCount := 0, releases := [] } }

/-- The world produced by `to_device` of host array 0 in `w6A`. -/
def w6B : World :=
  { hosts := [(0, hConc)], hnext := 1
    dev := { next := 1
             bufs := [(0, { shape := [2], dtype := DType.i64, status := BufStatus.ready [5, 7] })]
             allocCount := 1
             releases := [] } }

/-- Closed witness for C6 at a concrete world. -/
theorem claim_C6_witness :
    lookupHost w6A 0 = some hConc ∧ to_deviceW w6A 0 = some (0, w6B) ∧
      devContents w6B 0 = some [5, 7] :=
  ⟨by decide, by decide,
   (claim_C6_no_alias w6A 0 0 w6B hConc (by decide) (by decide)).2.2.1⟩


/-- Manager state after releasing buffer `i` whose descriptor was
`(rs, rd)`: the record is marked freed and the release is logged. -/
def freedMgr (m : Mgr) (i : Nat) (rs : Shape) (rd : DType) : Mgr :=
  { setBuf m i { shape := rs, dtype := rd, status := BufStatus.freed } with
    releases := i :: m.releases }

/-- In the state `freedMgr m i rs rd`, every operation touching buffer
`i` fails with `UseAfterFreeError`, the release log grew by exactly the
one entry, and all other buffers are untouched. -/
theorem freedMgr_spec (m : Mgr) (i : Nat) (rs : Shape) (rd : DType) (st : BufStatus)
    (hfb : findBuf m i = some { shape := rs, dtype := rd, status := st }) :
    free (freedMgr m i rs rd) i = Except.error Err.UseAfterFreeError ∧
    copy_to_host (freedMgr m i rs rd) i = Except.error Err.UseAfterFreeError ∧
    (∀ (fn : UFunc) (rest : List Nat) (out : Nat),
      devApply fn (freedMgr m i rs rd) (i :: rest) out = Except.error Err.UseAfterFreeError) ∧
    (∀ (fn : UFunc) (ins : List Nat) (insv : List (Shape × List Int)) (bs : Shape),
      resolveInputs (freedMgr m i rs rd) ins = Except.ok insv →
      broadcastAll (insv.map (fun a => a.1)) = some bs →
      devApply fn (freedMgr m i rs rd) ins i = Except.error Err.UseAfterFreeError) ∧
    (freedMgr m i rs rd).releases = i :: m.releases ∧
    (∀ j, j ≠ i → findBuf (freedMgr m i rs rd) j = findBuf m j) := by
  have hfb' : lookupRec m.bufs i = some ⟨rs, rd, st⟩ := hfb
  have hfind : findBuf (freedMgr m i rs rd) i =
      some { shape := rs, dtype := rd, status := BufStatus.freed } := by
    simp only [freedMgr, findBuf, setBuf]
    rw [lookupRec_updateRec_self, hfb']
    rfl
  refine ⟨?_, ?_, ?_, ?_, ?_, ?_⟩
  · simp [free, hfind]
  · simp [copy_to_host, hfind]
  · intro fn rest out
    simp [devApply, resolveInputs, hfind]
  · intro fn ins insv bs hres hbs
    simp [devApply, hres, hbs, hfind]
  · rfl
  · intro j hj
    show findBuf (setBuf m i _) j = findBuf m j
    exact findBuf_setBuf_ne m i j _ hj

/-- C7: after a successful `free`, every further operation on the
buffer — a second `free`, `copy_to_host`, or use as an `apply` input or
output — fails with `UseAfterFreeError`; the release log records the
buffer exactly once more and every other buffer's record is left
untouched, so the failing second `free` cannot release anything twice. -/
theorem claim_C7_free_idempotent (m m' : Mgr) (i : Nat)
    (hf : free m i = Except.ok m') :
    free m' i = Except.error Err.UseAfterFreeError ∧
    copy_to_host m' i = Except.error Err.UseAfterFreeError ∧
    (∀ (fn : UFunc) (rest : List Nat) (out : Nat),
      devApply fn m' (i :: rest) out = Except.error Err.UseAfterFreeError) ∧
    (∀ (fn : UFunc) (ins : List Nat) (insv : List (Shape × List Int)) (bs : Shape),
      resolveInputs m' ins = Except.ok insv →
      broadcastAll (insv.map (fun a => a.1)) = some bs →
      devApply fn m' ins i = Except.error Err.UseAfterFreeError) ∧
    m'.releases = i :: m.releases ∧
    (∀ j, j ≠ i → findBuf m' j = findBuf m j) := by
  rcases hfb : findBuf m i with _ | ⟨rs, rd, st⟩
  · simp [free, hfb] at hf
  · cases st with
    | unready =>
      simp only [free, hfb, Except.ok.injEq] at hf
      have hm' : m' = freedMgr m i rs rd := hf.symm
      rw [hm']
      exact freedMgr_spec m i rs rd BufStatus.unready hfb
    | ready d =>
      simp only [free, hfb, Except.ok.injEq] at hf
      have hm' : m' = freedMgr m i rs rd := hf.symm
      rw [hm']
      exact freedMgr_spec m i rs rd (BufStatus.ready d) hfb
    | freed =>
      simp [free, hfb] at hf

/-- Concrete one-buffer manager used by the closed instance of C7. -/
def m7A : Mgr :=
  { next := 1
    bufs := [(0, { shape := [1], dtype := DType.i64, status := BufStatus.ready [5] })]
    allocCount := 1
    releases := [] }

/-- The manager after freeing buffer 0 of `m7A`. -/
def m7B : Mgr :=
  { next := 1
    bufs := [(0, { shape := [1], dtype := DType.i64, status := BufStatus.freed })]
    allocCount := 1
    releases := [0] }

/-- Closed witness for C7 at a concrete manager. -/
theorem claim_C7_witness :
    free m7A 0 = Except.ok m7B ∧ free m7B 0 = Except.error Err.UseAfterFreeError :=
  ⟨by decide, (claim_C7_free_idempotent m7A m7B 0 (by decide)).1⟩

/-- The CUDA addition ufunc of the memory-management notebook, declared
`@vectorize(['float32(float32, float32)'], target='cuda')` over
`x + y` (element values modelled as integers, dtype tag float32). -/
def add_ufunc : UFunc :=
  { retDtype := DType.f32
    eval := fun l => l.foldl (fun a b => a + b) 0 }

/-- Manager state after a successful `apply` into buffer `out`: the
output record is overwritten in place with the broadcast results, and
nothing else — in particular no allocation counter — changes. -/
def outMgr (fn : UFunc) (m : Mgr) (out : Nat) (ins : List (Shape × List Int)) (bs : Shape) : Mgr :=
  setBuf m out
    { shape := bs, dtype := fn.retDtype
      status := BufStatus.ready (evalBroadcast fn ins bs) }

/-- C3: when a caller supplies `out` and the buffer matches the
broadcast shape and the ufunc's return dtype, `apply` writes the
results into that buffer and returns the very same handle with the
allocation counter unchanged, so repeated calls with the same `out`
never allocate; a shape or dtype mismatch raises `OutputContractError`;
and every successful `out=` call, whatever the inputs, returns the
supplied handle without allocating. -/
theorem claim_C3_output_contract (fn : UFunc) (m : Mgr) (inputs : List Nat) (out : Nat)
    (ins : List (Shape × List Int)) (bs : Shape) (r : BufRec)
    (hres : resolveInputs m inputs = Except.ok ins)
    (hbs : broadcastAll (ins.map (fun a => a.1)) = some bs)
    (hout : findBuf m out = some r)
    (hnf : r.status ≠ BufStatus.freed) :
    (r.shape = bs → r.dtype = fn.retDtype →
      devApply fn m inputs out = Except.ok (out, outMgr fn m out ins bs) ∧
      (outMgr fn m out ins bs).allocCount = m.allocCount ∧
      findBuf (outMgr fn m out ins bs) out =
        some { shape := bs, dtype := fn.retDtype
               status := BufStatus.ready (evalBroadcast fn ins bs) }) ∧
    (¬ (r.shape = bs ∧ r.dtype = fn.retDtype) →
      devApply fn m inputs out = Except.error Err.OutputContractError) ∧
    (∀ (j : Nat) (m2 : Mgr), devApply fn m inputs out = Except.ok (j, m2) →
      j = out ∧ m2.allocCount = m.allocCount) := by
  rcases r with ⟨rsh, rdt, rst⟩
  have hfind : findBuf (outMgr fn m out ins bs) out =
      some { shape := bs, dtype := fn.retDtype
             status := BufStatus.ready (evalBroadcast fn ins bs) } := by
    rw [outMgr, findBuf_setBuf_self, hout]
    rfl
  cases rst with
  | freed => exact absurd rfl hnf
  | unready =>
    have hred : devApply fn m inputs out =
        if rsh = bs ∧ rdt = fn.retDtype then
          Except.ok (out,
            setBuf m out
              { shape := rsh, dtype := rdt
                status := BufStatus.ready (evalBroadcast fn ins bs) })
        else Except.error Err.OutputContractError := by
      simp only [devApply, hres, hbs, hout]
    refine ⟨?_, ?_, ?_⟩
    · intro h1 h2
      subst h1
      subst h2
      rw [hred, if_pos ⟨rfl, rfl⟩]
      exact ⟨rfl, rfl, hfind⟩
    · intro hnot
      rw [hred, if_neg hnot]
    · intro j m2 hok
      rw [hred] at hok
      by_cases hc : rsh = bs ∧ rdt = fn.retDtype
      · rw [if_pos hc] at hok
        simp only [Except.ok.injEq, Prod.mk.injEq] at hok
        exact ⟨hok.1.symm, by rw [← hok.2]; rfl⟩
      · rw [if_neg hc] at hok
        cases hok
  | ready d =>
    have hred : devApply fn m inputs out =
        if rsh = bs ∧ rdt = fn.retDtype then
          Except.ok (out,
            setBuf m out
              { shape := rsh, dtype := rdt
                status := BufStatus.ready (evalBroadcast fn ins bs) })
        else Except.error Err.OutputContractError := by
      simp only [devApply, hres, hbs, hout]
    refine ⟨?_, ?_, ?_⟩
    · intro h1 h2
      subst h1
      subst h2
      rw [hred, if_pos ⟨rfl, rfl⟩]
      exact ⟨rfl, rfl, hfind⟩
    · intro hnot
      rw [hred, if_neg hnot]
    · intro j m2 hok
      rw [hred] at hok
      by_cases hc : rsh = bs ∧ rdt = fn.retDtype
      · rw [if_pos hc] at hok
        simp only [Except.ok.injEq, Prod.mk.injEq] at hok
        exact ⟨hok.1.symm, by rw [← hok.2]; rfl⟩
      · rw [if_neg hc] at hok
        cases hok

/-- Concrete manager with two ready input buffers and one unready
float32 output buffer, used by the closed instance of C3. -/
def m3A : Mgr :=
  { next := 3
    bufs := [(0, { shape := [2], dtype := DType.f32, status := BufStatus.ready [1, 2] }),
             (1, { shape := [2], dtype := DType.f32, status := BufStatus.ready [10, 20] }),
             (2, { shape := [2], dtype := DType.f32, status := BufStatus.unready })]
    allocCount := 3
    releases := [] }

/-- Closed witness for C3: `apply(add_ufunc, 0, 1, out=2)` on `m3A`
returns buffer 2 itself. -/
theorem claim_C3_witness :
    devApply add_ufunc m3A [0, 1] 2 =
      Except.ok (2, outMgr add_ufunc m3A 2 [([2], [1, 2]), ([2], [10, 20])] [2]) :=
  ((claim_C3_output_contract add_ufunc m3A [0, 1] 2 [([2], [1, 2]), ([2], [10, 20])] [2]
      { shape := [2], dtype := DType.f32, status := BufStatus.unready }
      (by decide) (by decide) (by decide) (by decide)).1 rfl rfl).1

/-- Unfolding one scheduled task: the task at the head of the order
writes its element, then the rest of the schedule runs. -/
theorem runSchedule_cons {α : Type} (f : Nat → α) (k : Nat) (rest : List Nat) (init : List α) :
    runSchedule f (k :: rest) init = runSchedule f rest (init.set k (f k)) := rfl

/-- A schedule never changes the length of the output buffer. -/
theorem runSchedule_length {α : Type} (f : Nat → α) (order : List Nat) (init : List α) :
    (runSchedule f order init).length = init.length := by
  induction order generalizing init with
  | nil => rfl
  | cons k rest ih =>
    rw [runSchedule_cons, ih, List.length_set]

/-- A slot no task of the schedule writes keeps its initial value. -/
theorem runSchedule_getElem_not_mem {α : Type} (f : Nat → α) (order : List Nat)
    (init : List α) (i : Nat) (h : i ∉ order) :
    (runSchedule f order init)[i]? = init[i]? := by
  induction order generalizing init with
  | nil => rfl
  | cons k rest ih =>
    simp only [List.mem_cons, not_or] at h
    rw [runSchedule_cons, ih _ h.2, List.getElem?_set_ne (fun hc => h.1 hc.symm)]

/-- A slot some task of the schedule writes ends up holding exactly its
task's value, whatever the order of the tasks. -/
theorem runSchedule_getElem_mem {α : Type} (f : Nat → α) (order : List Nat)
    (init : List α) (i : Nat) (hi : i < init.length) (h : i ∈ order) :
    (runSchedule f order init)[i]? = some (f i) := by
  induction order generalizing init with
  | nil => cases h
  | cons k rest ih =>
    by_cases hm : i ∈ rest
    · rw [runSchedule_cons]
      exact ih (init.set k (f k)) (by rw [List.length_set]; exact hi) hm
    · have hk : k = i := by
        rcases List.mem_cons.1 h with h1 | h2
        · exact h1.symm
        · exact absurd h2 hm
      subst hk
      rw [runSchedule_cons, runSchedule_getElem_not_mem _ _ _ _ hm,
        List.getElem?_set_eq_of_lt _ hi]

/-- Any schedule that is a permutation of the output index space yields
the sequentially mapped result. -/
theorem runSchedule_eq_map {α : Type} (f : Nat → α) (order : List Nat) (init : List α)
    (n : Nat) (hperm : order.Perm (List.range n)) (hlen : init.length = n) :
    runSchedule f order init = (List.range n).map f := by
  apply List.ext_get?_iff.2
  intro i
  simp only [List.get?_eq_getElem?]
  by_cases hi : i < n
  · have him : i ∈ order := hperm.mem_iff.2 (List.mem_range.2 hi)
    rw [runSchedule_getElem_mem _ _ _ _ (by rw [hlen]; exact hi) him]
    rw [List.getElem?_map, List.getElem?_range hi]
    rfl
  · rw [List.getElem?_eq_none, List.getElem?_eq_none]
    · rw [List.length_map, List.length_range]; omega
    · rw [runSchedule_length, hlen]; omega

/-- Mapping over a list is mapping its positional reads over the range
of its positions. -/
theorem map_eq_range_map {β γ : Type} (g : β → γ) (l : List β) (d : β) :
    l.map g = (List.range l.length).map (fun k => g (l.getD k d)) := by
  apply List.ext_get?_iff.2
  intro i
  simp only [List.get?_eq_getElem?]
  by_cases hi : i < l.length
  · rw [List.getElem?_map, List.getElem?_map, List.getElem?_range hi,
      List.getElem?_eq_getElem hi]
    simp only [Option.map_some']
    rw [List.getD_eq_getElem l d hi]
  · rw [List.getElem?_eq_none, List.getElem?_eq_none]
    · rw [List.length_map, List.length_range]; omega
    · rw [List.length_map]; omega

/-- The broadcast result is the sequential per-position evaluation over
the flat output index space. -/
theorem evalBroadcast_eq_range_map (fn : UFunc) (ins : List (Shape × List Int)) (bs : Shape) :
    evalBroadcast fn ins bs =
      (List.range (allIndices bs).length).map (broadcastElemAt fn ins bs) := by
  rw [evalBroadcast, map_eq_range_map (broadcastElem fn ins) (allIndices bs) []]
  rfl

/-- C8: any parallel execution strategy of the batch executor — any
task order covering the output index space exactly once, modelled as a
permutation schedule of independent per-element writes — produces a
result bit-identical to sequential per-element evaluation; this holds
for an arbitrary element type (hence also for a floating-point element
semantics, where a reordering could otherwise change rounding), and in
particular for the broadcast evaluation `apply` performs. -/
theorem claim_C8_parallel_deterministic :
    (∀ {α : Type} (f : Nat → α) (order : List Nat) (init : List α) (n : Nat),
      order.Perm (List.range n) → init.length = n →
      runSchedule f order init = (List.range n).map f) ∧
    (∀ (fn : UFunc) (ins : List (Shape × List Int)) (bs : Shape)
        (order : List Nat) (init : List Int),
      order.Perm (List.range (allIndices bs).length) →
      init.length = (allIndices bs).length →
      runSchedule (broadcastElemAt fn ins bs) order init = evalBroadcast fn ins bs) := by
  constructor
  · intro α f order init n hperm hlen
    exact runSchedule_eq_map f order init n hperm hlen
  · intro fn ins bs order init hperm hlen
    rw [runSchedule_eq_map _ _ _ _ hperm hlen, ← evalBroadcast_eq_range_map]

/-- Closed witness for C8: evaluating the two elements of a broadcast
addition in reversed order gives the sequential result. -/
theorem claim_C8_witness :
    ([1, 0] : List Nat).Perm (List.range (allIndices [2]).length) ∧
    runSchedule (broadcastElemAt addU [([2], [1, 2]), ([2], [10, 20])] [2]) [1, 0] [0, 0] =
      evalBroadcast addU [([2], [1, 2]), ([2], [10, 20])] [2] :=
  ⟨by decide,
   claim_C8_parallel_deterministic.2 addU [([2], [1, 2]), ([2], [10, 20])] [2]
     [1, 0] [0, 0] (by decide) (by decide)⟩

/-- C9: the `hypot` kernel scales by the larger magnitude and divides
the smaller by it with no zero-divisor guard: whenever
`max(|x|,|y|) != 0` the division is well-defined and the result is
exactly `sqrt(x^2 + y^2)` — in particular `hypot 3 4 = 5` — while at
`x = 0, y = 0` the division evaluates `0/0`, so `hypot 0 0` is NaN and
in particular does not return 0. -/
theorem claim_C9_hypot :
    (∀ x y : ℝ, max |x| |y| ≠ 0 → hypot x y = some (Real.sqrt (x ^ 2 + y ^ 2))) ∧
    hypot 3 4 = some 5 ∧
    hypot 0 0 = none ∧
    hypot 0 0 ≠ some 0 := by
  have main : ∀ x y : ℝ, max |x| |y| ≠ 0 → hypot x y = some (Real.sqrt (x ^ 2 + y ^ 2)) := by
    intro x y hne
    have hx2nn : (0:ℝ) ≤ max |x| |y| := le_trans (abs_nonneg x) (le_max_left _ _)
    have hkey : (max |x| |y|) ^ 2 + (min |x| |y|) ^ 2 = x ^ 2 + y ^ 2 := by
      rcases le_total |x| |y| with h | h
      · rw [max_eq_right h, min_eq_left h, sq_abs, sq_abs, add_comm]
      · rw [max_eq_left h, min_eq_right h, sq_abs, sq_abs]
    have hsq : (0:ℝ) ≤ 1 +
        min |x| |y| / max |x| |y| * (min |x| |y| / max |x| |y|) := by positivity
    simp only [hypot, fDiv, fMul, fAdd, fSqrt, if_neg hne, if_neg (not_lt.2 hsq)]
    congr 1
    calc max |x| |y| * Real.sqrt (1 + min |x| |y| / max |x| |y| * (min |x| |y| / max |x| |y|))
        = Real.sqrt ((max |x| |y|) ^ 2) *
            Real.sqrt (1 + min |x| |y| / max |x| |y| * (min |x| |y| / max |x| |y|)) := by
          rw [Real.sqrt_sq hx2nn]
      _ = Real.sqrt ((max |x| |y|) ^ 2 *
            (1 + min |x| |y| / max |x| |y| * (min |x| |y| / max |x| |y|))) :=
          (Real.sqrt_mul (sq_nonneg _) _).symm
      _ = Real.sqrt ((max |x| |y|) ^ 2 + (min |x| |y|) ^ 2) := by
          congr 1
          field_simp
          ring
      _ = Real.sqrt (x ^ 2 + y ^ 2) := by rw [hkey]
  have h00 : hypot 0 0 = none := by
    norm_num [hypot, fDiv, fMul, fAdd, fSqrt]
  refine ⟨main, ?_, h00, by rw [h00]; exact fun hc => Option.noConfusion hc⟩
  have h34 := main 3 4 (by norm_num)
  rw [h34]
  rw [show (3:ℝ) ^ 2 + 4 ^ 2 = 5 ^ 2 by norm_num, Real.sqrt_sq (by norm_num : (0:ℝ) ≤ 5)]

/-- Closed witness for C9: the scaled-division path of `hypot` taken at
the notebook's test input, with the nonzero-divisor hypothesis
discharged at `3, 4`. -/
theorem claim_C9_witness :
    max |(3:ℝ)| |(4:ℝ)| ≠ 0 ∧ hypot 3 4 = some (Real.sqrt (3 ^ 2 + 4 ^ 2)) :=
  ⟨by norm_num, claim_C9_hypot.1 3 4 (by norm_num)⟩
